import Mathlib

/-!
Shallow embedding of the `crawler_corte_idh` scraper scripts.

Each JavaScript function that the specification talks about is translated
into an executable Lean definition.  Asynchronous, event-driven code is
modelled by making the external world (the HTTP response, the outcome of a
fetch) an explicit argument, and by having the embedded functions return
the ordered list of observable actions they perform together with their
result.  Machine integers do not occur in the scripts except inside the
SHA-256 hash used for file names, which is embedded over `Nat` with
explicit reduction modulo `2 ^ 32`.
-/

namespace Crawler

/-- `pat` occurs as a contiguous run somewhere in the character list. -/
def charsContain (pat : List Char) : List Char → Bool
  | [] => pat.isEmpty
  | c :: cs => pat.isPrefixOf (c :: cs) || charsContain pat cs

/-- JavaScript's `String.prototype.includes`: `strContains s pat` is true iff
`pat` occurs as a contiguous substring of `s`. -/
def strContains (s pat : String) : Bool :=
  charsContain pat.data s.data

/-- JavaScript's `String.prototype.startsWith`. -/
def strStartsWith (s pat : String) : Bool :=
  pat.data.isPrefixOf s.data

/-- JavaScript's `String.prototype.endsWith`. -/
def strEndsWith (s pat : String) : Bool :=
  pat.data.isSuffixOf s.data

/-! ### SHA-256, as used by `crypto.createHash("sha256").update(url).digest("hex")`

Node's `hash.update(url)` encodes the string as UTF-8; the embedding does the
same.  All words are `Nat`s kept below `2 ^ 32` by explicit `% (2 ^ 32)`. -/

/-- UTF-8 encoding of a single code point (1 to 4 bytes). -/
def utf8BytesOfChar (c : Char) : List Nat :=
  let n := c.toNat
  if n < 0x80 then [n]
  else if n < 0x800 then
    [0xC0 ||| (n >>> 6), 0x80 ||| (n &&& 0x3F)]
  else if n < 0x10000 then
    [0xE0 ||| (n >>> 12), 0x80 ||| ((n >>> 6) &&& 0x3F), 0x80 ||| (n &&& 0x3F)]
  else
    [0xF0 ||| (n >>> 18), 0x80 ||| ((n >>> 12) &&& 0x3F),
     0x80 ||| ((n >>> 6) &&& 0x3F), 0x80 ||| (n &&& 0x3F)]

/-- UTF-8 encoding of a string as a list of bytes. -/
def utf8Bytes (s : String) : List Nat :=
  s.data.flatMap utf8BytesOfChar

/-- Right rotation of a 32-bit word. -/
def rotr32 (k x : Nat) : Nat :=
  ((x >>> k) ||| (x <<< (32 - k))) % (2 ^ 32)

/-- The 64 SHA-256 round constants (FIPS 180-4), written in decimal. -/
def sha256K : List Nat :=
  [1116352408, 1899447441, 3049323471, 3921009573, 961987163, 1508970993,
   2453635748, 2870763221, 3624381080, 310598401, 607225278, 1426881987,
   1925078388, 2162078206, 2614888103, 3248222580, 3835390401, 4022224774,
   264347078, 604807628, 770255983, 1249150122, 1555081692, 1996064986,
   2554220882, 2821834349, 2952996808, 3210313671, 3336571891, 3584528711,
   113926993, 338241895, 666307205, 773529912, 1294757372, 1396182291,
   1695183700, 1986661051, 2177026350, 2456956037, 2730485921, 2820302411,
   3259730800, 3345764771, 3516065817, 3600352804, 4094571909, 275423344,
   430227734, 506948616, 659060556, 883997877, 958139571, 1322822218,
   1537002063, 1747873779, 1955562222, 2024104815, 2227730452, 2361852424,
   2428436474, 2756734187, 3204031479, 3329325298]

/-- The SHA-256 working state: eight 32-bit words. -/
structure Sha8 where
  a : Nat
  b : Nat
  c : Nat
  d : Nat
  e : Nat
  f : Nat
  g : Nat
  h : Nat
deriving Repr, DecidableEq

/-- Initial SHA-256 hash value (FIPS 180-4), written in decimal. -/
def sha256H0 : Sha8 :=
  ⟨1779033703, 3144134277, 1013904242, 2773480762,
   1359893119, 2600822924, 528734635, 1541459225⟩

/-- SHA-256 message padding: append `0x80`, zero bytes to 56 mod 64, then the
bit length as an 8-byte big-endian integer. -/
def sha256Pad (msg : List Nat) : List Nat :=
  let len := msg.length
  let bitLen := len * 8
  let zeroCount := (55 + 64 - len % 64) % 64
  msg ++ [0x80] ++ List.replicate zeroCount 0 ++
    [(bitLen >>> 56) % 256, (bitLen >>> 48) % 256, (bitLen >>> 40) % 256,
     (bitLen >>> 32) % 256, (bitLen >>> 24) % 256, (bitLen >>> 16) % 256,
     (bitLen >>> 8) % 256, bitLen % 256]

/-- Split a byte list into 64-byte chunks.  Structural recursion on a fuel
bound (the list length, which strictly exceeds the chunk count) so that the
definition reduces inside the kernel. -/
def chunksGo : Nat → List Nat → List (List Nat)
  | _, [] => []
  | 0, l => [l]
  | fuel + 1, x :: xs => (x :: xs).take 64 :: chunksGo fuel ((x :: xs).drop 64)

/-- Split a byte list into 64-byte chunks. -/
def chunks64 (l : List Nat) : List (List Nat) :=
  chunksGo l.length l

/-- Group a 64-byte block into sixteen big-endian 32-bit words. -/
def words16 : List Nat → List Nat
  | b0 :: b1 :: b2 :: b3 :: rest =>
      (b0 <<< 24 ||| b1 <<< 16 ||| b2 <<< 8 ||| b3) :: words16 rest
  | _ => []

/-- Extension steps for the SHA-256 message schedule, one word per step. -/
def sha256ScheduleGo : Nat → List Nat → List Nat
  | 0, w => w
  | k + 1, w =>
    let i := w.length
    let w15 := w.getD (i - 15) 0
    let w2 := w.getD (i - 2) 0
    let s0 := rotr32 7 w15 ^^^ rotr32 18 w15 ^^^ (w15 >>> 3)
    let s1 := rotr32 17 w2 ^^^ rotr32 19 w2 ^^^ (w2 >>> 10)
    sha256ScheduleGo k (w ++ [(w.getD (i - 16) 0 + s0 + w.getD (i - 7) 0 + s1) % (2 ^ 32)])

/-- Extend sixteen schedule words to sixty-four. -/
def sha256Schedule (w : List Nat) : List Nat :=
  sha256ScheduleGo 48 w

/-- One SHA-256 round, for round constant `k` and schedule word `w`. -/
def sha256Round (st : Sha8) (kw : Nat × Nat) : Sha8 :=
  let s1 := rotr32 6 st.e ^^^ rotr32 11 st.e ^^^ rotr32 25 st.e
  let ch := (st.e &&& st.f) ^^^ ((st.e ^^^ (2 ^ 32 - 1)) &&& st.g)
  let t1 := (st.h + s1 + ch + kw.1 + kw.2) % (2 ^ 32)
  let s0 := rotr32 2 st.a ^^^ rotr32 13 st.a ^^^ rotr32 22 st.a
  let mj := (st.a &&& st.b) ^^^ (st.a &&& st.c) ^^^ (st.b &&& st.c)
  let t2 := (s0 + mj) % (2 ^ 32)
  ⟨(t1 + t2) % (2 ^ 32), st.a, st.b, st.c, (st.d + t1) % (2 ^ 32), st.e, st.f, st.g⟩

/-- Compress one 64-byte block into the running hash value. -/
def sha256Compress (h : Sha8) (block : List Nat) : Sha8 :=
  let w := sha256Schedule (words16 block)
  let st := (sha256K.zip w).foldl sha256Round h
  ⟨(h.a + st.a) % (2 ^ 32), (h.b + st.b) % (2 ^ 32), (h.c + st.c) % (2 ^ 32),
   (h.d + st.d) % (2 ^ 32), (h.e + st.e) % (2 ^ 32), (h.f + st.f) % (2 ^ 32),
   (h.g + st.g) % (2 ^ 32), (h.h + st.h) % (2 ^ 32)⟩

/-- Lowercase hexadecimal digit for a nibble. -/
def hexDigit (n : Nat) : Char :=
  "0123456789abcdef".data.getD n '0'

/-- Eight lowercase hex digits of a 32-bit word. -/
def hexWord (n : Nat) : String :=
  String.mk ((List.range 8).map fun i => hexDigit ((n >>> ((7 - i) * 4)) &&& 0xF))

/-- The SHA-256 digest of a string, in lowercase hex, exactly as produced by
Node's `crypto.createHash("sha256").update(url).digest("hex")`. -/
def sha256Hex (s : String) : String :=
  let blocks := chunks64 (sha256Pad (utf8Bytes s))
  let h := blocks.foldl sha256Compress sha256H0
  hexWord h.a ++ hexWord h.b ++ hexWord h.c ++ hexWord h.d ++
  hexWord h.e ++ hexWord h.f ++ hexWord h.g ++ hexWord h.h

/-- `getFileNameFromURL` of `crawler_Revista_Latinoamericana_de_Psicología.js`
(and, identically, of `ohchr/crawler.js`): the SHA-256 hex digest of the URL. -/
def getFileNameFromURL (url : String) : String :=
  sha256Hex url

/-! ### The Revista-variant `downloadFile`, response path (claim C1)

`downloadFile(fileURL, outputPath)` registers a response callback on
`http(s).get`.  The callback inspects the status code, the `content-type`
header and — when the content type is not PDF — the accumulated body, and
settles the promise.  The response is modelled explicitly and the function
returns how the promise is settled. -/

/-- The rate-limit marker string checked by the Revista crawler. -/
def rateLimitMarker : String :=
  "Ha sobrepasado los límites de acceso"

/-- An HTTP response as seen by the `protocol.get` callback. -/
structure HttpResponse where
  statusCode : Nat
  statusMessage : String
  /-- The `content-type` header, absent when the header is missing. -/
  contentType : Option String
  body : String
deriving Repr, DecidableEq

/-- How a `downloadFile` promise is settled. -/
inductive Settled where
  /-- The body was piped to the output file and the promise resolved. -/
  | resolved
  /-- Rejected with `RateLimitError` (the crawler's custom error class). -/
  | rejectedRateLimit (message : String)
  /-- Rejected with an ordinary `Error`. -/
  | rejectedError (message : String)
deriving Repr, DecidableEq

/-- The response callback of the Revista `downloadFile`
(`crawler_Revista_Latinoamericana_de_Psicología.js`, lines 46–96): non-200
statuses reject with an `Error`; a missing or non-`application/pdf` content
type accumulates the body and rejects with `RateLimitError` when the body
contains the rate-limit marker, otherwise with an `Error`; a 200 response
with PDF content type is piped to the file and resolves. -/
def downloadFileRevista (resp : HttpResponse) : Settled :=
  if resp.statusCode != 200 then
    .rejectedError ("Failed to download file: " ++ toString resp.statusCode
      ++ " " ++ resp.statusMessage)
  else
    let ctOk := match resp.contentType with
      | none => false
      | some ct => strContains ct "application/pdf"
    if !ctOk then
      if strContains resp.body rateLimitMarker then
        .rejectedRateLimit "Rate limit exceeded"
      else
        .rejectedError ("Expected application/pdf but got "
          ++ (match resp.contentType with | none => "undefined" | some ct => ct))
    else
      .resolved

/-- Whether a settlement is a rejection (of either kind). -/
def Settled.isRejected : Settled → Bool
  | .resolved => false
  | .rejectedRateLimit _ => true
  | .rejectedError _ => true

/-- Whether the response's content type is `application/pdf` in the sense the
code tests it (header present and containing that string). -/
def contentTypeIsPdf (resp : HttpResponse) : Bool :=
  match resp.contentType with
  | none => false
  | some ct => strContains ct "application/pdf"

/-! ### Events

All embedded crawler operations report the ordered list of observable
actions they perform. -/

/-- Observable actions of the embedded crawler operations. -/
inductive Ev where
  /-- An in-memory assignment `caseMapping[key] = {...}` (success ledger). -/
  | ledgerSet (key : String)
  /-- A network GET performed by `downloadFile`. -/
  | networkDownload (url : String)
  /-- A headless-browser page load performed by `generatePDF`. -/
  | networkRender (url : String)
  /-- `saveJSON(mappingOutputPath, caseMapping)`. -/
  | persistSuccess
  /-- An in-memory assignment `failedCaseMapping[key] = {...}`. -/
  | failedLedgerSet (key : String)
  /-- `saveJSON(failedMappingOutputPath, failedCaseMapping)`. -/
  | persistFailed
  /-- `await sleep(ms)`. -/
  | sleepMs (ms : Nat)
  /-- The retry wrapper invoking its wrapped function, attempt `i` (0-based). -/
  | invoke (i : Nat)
deriving Repr, DecidableEq

/-- Whether an event is a network fetch (direct download or page render). -/
def Ev.isNetworkFetch : Ev → Bool
  | .networkDownload _ => true
  | .networkRender _ => true
  | _ => false

/-! ### `retryWithDelay` (claim C2)

`retryWithDelay(fn, delay, retries, ...args)` loops `retries` times: it
invokes `fn`; a thrown `RateLimitError` is caught, the loop sleeps `delay`
milliseconds and tries again; any other thrown error propagates; when the
loop ends without a successful return it throws
`new Error("Falló después de " + retries + " reintentos")`.  The wrapped
function is modelled as a map from the attempt number to its outcome. -/

/-- Outcome of one invocation of the wrapped function. -/
inductive FnOutcome (α : Type) where
  /-- The invocation returned `v`. -/
  | success (v : α)
  /-- The invocation threw a `RateLimitError` with this message. -/
  | rateLimitThrown (message : String)
  /-- The invocation threw an error that is not a `RateLimitError`. -/
  | errorThrown (message : String)
deriving Repr, DecidableEq

/-- How `retryWithDelay` finishes. -/
inductive RetryResult (α : Type) where
  /-- The wrapped function returned `v` and the wrapper returns it. -/
  | ok (v : α)
  /-- The wrapper threw an error with this message. -/
  | thrown (message : String)
deriving Repr, DecidableEq

/-- The loop of `retryWithDelay`
(`crawler_Revista_Latinoamericana_de_Psicología.js`, lines 289–307):
`i` is the next attempt number, `rem` the remaining loop iterations,
`retries` the configured total used in the final error message. -/
def retryWithDelayGo {α : Type} (fn : Nat → FnOutcome α) (delay retries : Nat) :
    Nat → Nat → List Ev × RetryResult α
  | _, 0 => ([], .thrown ("Falló después de " ++ toString retries ++ " reintentos"))
  | i, rem + 1 =>
    match fn i with
    | .success v => ([.invoke i], .ok v)
    | .rateLimitThrown _ =>
        let r := retryWithDelayGo fn delay retries (i + 1) rem
        (.invoke i :: .sleepMs delay :: r.1, r.2)
    | .errorThrown m => ([.invoke i], .thrown m)

/-- `retryWithDelay(fn, delay, retries, ...args)`. -/
def retryWithDelay {α : Type} (fn : Nat → FnOutcome α) (delay retries : Nat) :
    List Ev × RetryResult α :=
  retryWithDelayGo fn delay retries 0 retries

/-- The event trace of `n` consecutive rate-limited attempts starting at
attempt `i`: each invocation is followed by one sleep of `d` milliseconds. -/
def rlTrace (d : Nat) : Nat → Nat → List Ev
  | _, 0 => []
  | i, n + 1 => Ev.invoke i :: Ev.sleepMs d :: rlTrace d (i + 1) n

/-- Number of `invoke` events in a trace. -/
def countInvokes (evs : List Ev) : Nat :=
  evs.countP fun e => match e with | .invoke _ => true | _ => false

/-! ### The CIDH / UMN `downloadFile` (claim C4)

`crawler_cidh.js` lines 37–88 (the fondos crawler) and lines 419–470 (the
University of Minnesota crawler) contain the same `downloadFile`: a URL
containing "htm" is rendered by a headless browser to a PDF at
`outputPath + ".pdf"` with format A4, 20mm margins on all four sides and
`printBackground: true`; any other URL is fetched with a plain `http` or
`https` GET and the body is piped to `outputPath`. -/

/-- Which Node module performs the GET, chosen by `fileURL.startsWith("https")`. -/
inductive Protocol where
  | http
  | https
deriving Repr, DecidableEq

/-- `const protocol = fileURL.startsWith("https") ? https : http`. -/
def protocolFor (fileURL : String) : Protocol :=
  if strStartsWith fileURL "https" then .https else .http

/-- The externally visible effect of the CIDH/UMN `downloadFile`. -/
inductive DlAction where
  /-- `page.pdf({path, format, margin: {top, right, bottom, left}, printBackground})`. -/
  | renderToPdf (path : String) (format : String)
      (marginTop marginRight marginBottom marginLeft : String)
      (printBackground : Bool)
  /-- A direct GET whose response body is piped to `path`. -/
  | httpGetPipe (proto : Protocol) (url : String) (path : String)
deriving Repr, DecidableEq

/-- The CIDH/UMN `downloadFile(fileURL, outputPath)`. -/
def downloadFileCidh (fileURL outputPath : String) : DlAction :=
  if strContains fileURL "htm" then
    .renderToPdf (outputPath ++ ".pdf") "A4" "20mm" "20mm" "20mm" "20mm" true
  else
    .httpGetPipe (protocolFor fileURL) fileURL outputPath

/-! ### Ledgers and `processAndDownloadArticle` (claims C3, C5, C7)

The Revista crawler keeps two module-level objects, `caseMapping` (success
ledger) and `failedCaseMapping` (failure ledger), plus files on disk.  JS
objects with string keys are modelled as association lists in insertion
order. -/

/-- One ledger value: `{url, title, category}` with an optional `error`. -/
structure LedgerEntry where
  url : String
  title : String
  category : String
  error : Option String := none
deriving Repr, DecidableEq

/-- A JS object used as a ledger: keys in insertion order. -/
abbrev Ledger := List (String × LedgerEntry)

/-- `obj.hasOwnProperty(k)`. -/
def hasKey (m : Ledger) (k : String) : Bool :=
  m.any fun p => p.1 == k

/-- `obj[k] = v`: replace the value if the key exists, else append. -/
def setKey (m : Ledger) (k : String) (v : LedgerEntry) : Ledger :=
  if hasKey m k then m.map (fun p => if p.1 == k then (k, v) else p)
  else m ++ [(k, v)]

/-- The mutable state the Revista crawler threads through article
processing: the two ledgers and the set of files present on disk
(modelled as the list of paths of completed writes). -/
structure CrawlState where
  caseMapping : Ledger
  failedCaseMapping : Ledger
  files : List String
deriving Repr, DecidableEq

/-- What `processAndDownloadArticle` extracts from an article element: the
title and, when an enlace labelled Texto completo exists, its href. -/
structure Article where
  title : String
  textoCompletoLink : Option String
deriving Repr, DecidableEq

/-- The outcome of the fetch attempted for an article: `downloadFile`
resolved / `generatePDF` returned, or one of them threw. -/
inductive FetchOutcome where
  /-- The fetch completed and the output file was written. -/
  | ok
  /-- A `RateLimitError` was thrown. -/
  | rateLimit (message : String)
  /-- An error that is not a `RateLimitError` was thrown. -/
  | failure (message : String)
deriving Repr, DecidableEq

/-- The success-ledger key of a Texto completo URL: its SHA-256 digest with
".pdf" appended. -/
def articleKey (link : String) : String :=
  getFileNameFromURL link ++ ".pdf"

/-- `path.join(outputDir, fileName + ".pdf")`. -/
def articlePath (outputDir link : String) : String :=
  outputDir ++ "/" ++ articleKey link

/-- The fetch the article triggers: a URL ending in ".pdf" is downloaded
directly, any other URL is rendered from the web page. -/
def fetchEventOf (link : String) : Ev :=
  if strEndsWith link ".pdf" then .networkDownload link else .networkRender link

/-- The already-processed check of `processAndDownloadArticle`:
`caseMapping.hasOwnProperty(fileName + ".pdf") ||
failedCaseMapping.hasOwnProperty(fileName)`. -/
def skipByLedger (st : CrawlState) (fileName : String) : Bool :=
  hasKey st.caseMapping (fileName ++ ".pdf") || hasKey st.failedCaseMapping fileName

/-- Result of one call to `processAndDownloadArticle`: the new state, the
ordered events, and the message of a re-thrown `RateLimitError` when the
call threw (all other errors are caught inside). -/
structure StepResult where
  state : CrawlState
  events : List Ev
  rethrown : Option String
deriving Repr, DecidableEq

/-- `processAndDownloadArticle`
(`crawler_Revista_Latinoamericana_de_Psicología.js`, lines 222–287).
With no Texto completo link the call just returns.  Otherwise, when the
file name is in either ledger, or the output file exists, the call returns
without fetching.  Otherwise the success-ledger entry is assigned first,
then the fetch runs; on success the success ledger is persisted; a thrown
`RateLimitError` is re-thrown; any other thrown error is caught and
recorded in the failure ledger under the SHA-256 digest of
`error.textoCompletoLink || "unknown"` — plain errors carry no such
property, so the key is the digest of "unknown" and url/title/category are
"unknown" — which is then persisted. -/
def processAndDownloadArticle (st : CrawlState) (art : Article)
    (outputDir category : String) (fetch : FetchOutcome) : StepResult :=
  match art.textoCompletoLink with
  | none => ⟨st, [], none⟩
  | some link =>
    let fileName := getFileNameFromURL link
    let outputPath := articlePath outputDir link
    if skipByLedger st fileName then
      ⟨st, [], none⟩
    else if !(st.files.contains outputPath) then
      let st1 := { st with
        caseMapping := setKey st.caseMapping (fileName ++ ".pdf")
          ⟨link, art.title, category, none⟩ }
      match fetch with
      | .ok =>
          ⟨{ st1 with files := outputPath :: st1.files },
           [.ledgerSet (fileName ++ ".pdf"), fetchEventOf link, .persistSuccess],
           none⟩
      | .rateLimit m =>
          ⟨st1, [.ledgerSet (fileName ++ ".pdf"), fetchEventOf link], some m⟩
      | .failure m =>
          let fkey := getFileNameFromURL "unknown"
          ⟨{ st1 with
             failedCaseMapping := setKey st1.failedCaseMapping fkey
               ⟨"unknown", "unknown", "unknown", some m⟩ },
           [.ledgerSet (fileName ++ ".pdf"), fetchEventOf link,
            .failedLedgerSet fkey, .persistFailed],
           none⟩
    else
      ⟨st, [], none⟩

/-- An article is covered by the current state: it has no Texto completo
link, or its key is in a ledger, or its output file exists. -/
def articleCovered (st : CrawlState) (outputDir : String) (art : Article) : Bool :=
  match art.textoCompletoLink with
  | none => true
  | some link =>
      skipByLedger st (getFileNameFromURL link)
      || st.files.contains (articlePath outputDir link)

/-- Sequential processing of a list of articles, each with the fetch
outcome the network would give it; a re-thrown `RateLimitError` aborts the
sequence (it propagates to the caller of the loop body). -/
def processArticles (outputDir category : String) :
    CrawlState → List (Article × FetchOutcome) → StepResult
  | st, [] => ⟨st, [], none⟩
  | st, (a, f) :: rest =>
    let r := processAndDownloadArticle st a outputDir category f
    match r.rethrown with
    | some m => ⟨r.state, r.events, some m⟩
    | none =>
      let r2 := processArticles outputDir category r.state rest
      ⟨r2.state, r.events ++ r2.events, r2.rethrown⟩

/-- The fixed delay `scrapeYearPage` passes to `retryWithDelay`:
15 minutes. -/
def scrapeYearDelayMs : Nat := 15 * 60 * 1000

/-- The fixed retry count `scrapeYearPage` passes to `retryWithDelay`. -/
def scrapeYearRetries : Nat := 3

/-- Result of running one article under the retry wrapper. -/
structure RetryRun where
  state : CrawlState
  events : List Ev
  /-- False when the wrapper exhausted its retries and threw. -/
  succeeded : Bool
deriving Repr, DecidableEq

/-- `retryWithDelay(processAndDownloadArticle, delay, retries, ...)`:
the loop of `retryWithDelay` specialised to the stateful article
processor, threading the crawler state through the attempts.  `fetches i`
is the network outcome the i-th attempt would see if it fetches. -/
def retryArticleGo (art : Article) (outputDir category : String)
    (fetches : Nat → FetchOutcome) (delay : Nat) :
    CrawlState → Nat → Nat → RetryRun
  | st, _, 0 => ⟨st, [], false⟩
  | st, i, rem + 1 =>
    let r := processAndDownloadArticle st art outputDir category (fetches i)
    match r.rethrown with
    | none => ⟨r.state, Ev.invoke i :: r.events, true⟩
    | some _ =>
        let r2 := retryArticleGo art outputDir category fetches delay r.state (i + 1) rem
        ⟨r2.state, (Ev.invoke i :: r.events) ++ (Ev.sleepMs delay :: r2.events), r2.succeeded⟩

/-- One article processed by `scrapeYearPage`: the retry wrapper with the
15-minute delay and 3 retries of the source. -/
def retryArticle (st : CrawlState) (art : Article) (outputDir category : String)
    (fetches : Nat → FetchOutcome) : RetryRun :=
  retryArticleGo art outputDir category fetches scrapeYearDelayMs st 0 scrapeYearRetries

/-! ### JSON ledger files (claim C6) -/

/-- A JSON value as the ledger files use them: strings and objects. -/
inductive Json where
  | str (s : String)
  | obj (fields : List (String × Json))

/-- Field lookup in a JSON object. -/
def jsonLookup (fields : List (String × Json)) (k : String) : Option Json :=
  (fields.find? fun p => p.1 == k).map fun p => p.2

/-- Whether a JSON value is a string. -/
def isStrJson : Json → Bool
  | .str _ => true
  | _ => false

/-- The JSON of one Revista/UMN ledger value:
`{url, title, category}` plus `error` when present. -/
def ledgerEntryJson (e : LedgerEntry) : Json :=
  .obj ([("url", .str e.url), ("title", .str e.title), ("category", .str e.category)] ++
    match e.error with
    | none => []
    | some m => [("error", .str m)])

/-- The JSON document `saveJSON` / `fs.writeFileSync` produces from a
Revista or UMN ledger. -/
def ledgerJson (m : Ledger) : Json :=
  .obj (m.map fun p => (p.1, ledgerEntryJson p.2))

/-- `obj[k] = v` for the string-valued CIDH `caseMapping`. -/
def setKeyStr (m : List (String × String)) (k v : String) : List (String × String) :=
  if m.any (fun p => p.1 == k) then m.map (fun p => if p.1 == k then (k, v) else p)
  else m ++ [(k, v)]

/-- `caseMapping[fileName] = caseName` of `crawler_cidh.js`
(`processAndDownloadFile`, lines 125–130): the value is the bare case
name string. -/
def cidhRecordCase (m : List (String × String)) (fileName caseName : String) :
    List (String × String) :=
  setKeyStr m fileName caseName

/-- `caseMapping["_ERROR_ " + caseName] = caseName` of `crawler_cidh.js`,
used when no file link is found. -/
def cidhRecordNoLink (m : List (String × String)) (caseName : String) :
    List (String × String) :=
  setKeyStr m ("_ERROR_ " ++ caseName) caseName

/-- The JSON document `fs.writeFileSync` produces from the CIDH
`caseMapping`. -/
def strMapJson (m : List (String × String)) : Json :=
  .obj (m.map fun p => (p.1, .str p.2))

/-- Modelled from the spec wording of claim C6: a ledger value of shape
`{url: string, title: string, category: string, error?: string}` —
string fields url/title/category, an optional string field error, and no
other fields. -/
def isClaimedEntryShape : Json → Bool
  | .obj fields =>
      (fields.all fun p =>
        p.1 == "url" || p.1 == "title" || p.1 == "category" || p.1 == "error")
      && (match jsonLookup fields "url" with | some (.str _) => true | _ => false)
      && (match jsonLookup fields "title" with | some (.str _) => true | _ => false)
      && (match jsonLookup fields "category" with | some (.str _) => true | _ => false)
      && (match jsonLookup fields "error" with
          | some (.str _) => true | none => true | some _ => false)
  | _ => false

/-- Modelled from the spec wording of claim C6: the whole ledger file maps
each key to a value of the claimed shape. -/
def claimedLedgerShape : Json → Bool
  | .obj entries => entries.all fun p => isClaimedEntryShape p.2
  | _ => false

/-- Every value of a JSON object is a string. -/
def jsonValuesAllStrings : Json → Bool
  | .obj entries => entries.all fun p => isStrJson p.2
  | _ => false

/-! ### `parseGoogleResults` (claim C10)

`google_browser/crawlerModule.js`, lines 155–175: the function loads the
HTML into cheerio, removes every `img` whose `src` starts with
"data:image", removes every `class` attribute, removes every `style`
element, removes every `style` attribute, and returns the serialized HTML
string.  The parsed markup is modelled as a tree; the function takes the
parsed fragment and returns the serialized string. -/

/-- Parsed HTML: text nodes and elements with attributes and children. -/
inductive Html where
  | text (s : String)
  | elem (tag : String) (attrs : List (String × String)) (children : List Html)

/-- Attribute lookup. -/
def attrLookup (attrs : List (String × String)) (k : String) : Option String :=
  (attrs.find? fun p => p.1 == k).map fun p => p.2

/-- The removal test of the first cheerio pass: an `img` whose `src`
starts with "data:image". -/
def badDataImageImg (tag : String) (attrs : List (String × String)) : Bool :=
  tag == "img" &&
    (match attrLookup attrs "src" with
     | some src => strStartsWith src "data:image"
     | none => false)

/-- The removal test of the third cheerio pass: a `style` element. -/
def badStyleElem (tag : String) (_attrs : List (String × String)) : Bool :=
  tag == "style"

/-- `$(sel).remove()` over the whole tree: drop every element (with its
subtree) whose tag/attributes satisfy `bad`. -/
def removeNodes (bad : String → List (String × String) → Bool) :
    List Html → List Html
  | [] => []
  | .text s :: xs => .text s :: removeNodes bad xs
  | .elem t a c :: xs =>
      if bad t a then removeNodes bad xs
      else .elem t a (removeNodes bad c) :: removeNodes bad xs

/-- `$("[k]").removeAttr(k)` over the whole tree, as the attribute-list
rewrite it performs on every element. -/
def mapAttrs (f : List (String × String) → List (String × String)) :
    List Html → List Html
  | [] => []
  | .text s :: xs => .text s :: mapAttrs f xs
  | .elem t a c :: xs => .elem t (f a) (mapAttrs f c) :: mapAttrs f xs

/-- Dropping attribute `k` from an attribute list (`removeAttr`). -/
def removeAttrKey (k : String) (attrs : List (String × String)) :
    List (String × String) :=
  attrs.filter fun p => p.1 != k

/-- Serialized attribute list. -/
def renderAttrs (attrs : List (String × String)) : String :=
  attrs.foldl (fun acc p => acc ++ " " ++ p.1 ++ "=\"" ++ p.2 ++ "\"") ""

/-- Serialized HTML (`$.html()`). -/
def renderHtml : List Html → String
  | [] => ""
  | .text s :: xs => s ++ renderHtml xs
  | .elem t a c :: xs =>
      "<" ++ t ++ renderAttrs a ++ ">" ++ renderHtml c ++ "</" ++ t ++ ">" ++
        renderHtml xs

/-- The four cheerio passes of `parseGoogleResults`, in source order. -/
def cleanGoogleResults (fragment : List Html) : List Html :=
  mapAttrs (removeAttrKey "style")
    (removeNodes badStyleElem
      (mapAttrs (removeAttrKey "class")
        (removeNodes badDataImageImg fragment)))

/-- `parseGoogleResults`: clean the fragment and return the serialized
HTML string (the doc comment of the source promises a list of
title/description/link objects, but the code returns `$.html()`). -/
def parseGoogleResults (fragment : List Html) : String :=
  renderHtml (cleanGoogleResults fragment)

/-- `p` holds of the tag and attribute list of every element node. -/
def allNodes (p : String → List (String × String) → Bool) : List Html → Bool
  | [] => true
  | .text _ :: xs => allNodes p xs
  | .elem t a c :: xs => p t a && allNodes p c && allNodes p xs

/-- A base64 `data:` URI in the sense of the claim. -/
def isBase64DataURI (s : String) : Bool :=
  strStartsWith s "data:" && strContains s ";base64,"

/-- An element has no attribute named `k`. -/
def hasNoAttr (k : String) (_tag : String) (attrs : List (String × String)) : Bool :=
  attrs.all fun p => p.1 != k

/-! ### The error-event handlers of `downloadFile` (claim C9)

Both `downloadFile` variants register `.on("error", handler)` on the GET
request.  The Revista handler calls `fs.unlink(outputPath, () => {})` and
rejects; the `opiniones_consultivas.js` handler calls
`fs.unlink(outputPath)` without a callback.  Since Node 10, `fs.unlink`
throws a `TypeError` synchronously when the callback is not a function,
so the call never reaches the file system. -/

/-- A call to the asynchronous `fs.unlink`, with or without a callback. -/
inductive FsUnlinkCall where
  | withCallback (path : String)
  | withoutCallback (path : String)
deriving Repr, DecidableEq

/-- Node semantics of `fs.unlink`: with a callback the deletion of the
path is scheduled; without one a `TypeError` is thrown synchronously. -/
def fsUnlinkRun : FsUnlinkCall → Except String String
  | .withCallback p => .ok p
  | .withoutCallback _ =>
      .error "TypeError: The callback argument must be of type function"

/-- What an error-event handler ends up doing. -/
structure HandlerOutcome where
  /-- The path whose deletion was scheduled, if any. -/
  deletedPath : Option String
  /-- The message the promise was rejected with, if the handler reached
  `reject`. -/
  rejectedWith : Option String
  /-- The message of an exception escaping the handler, if one was
  thrown. -/
  uncaughtException : Option String
deriving Repr, DecidableEq

/-- The Revista `downloadFile` error handler (lines 87–91):
`fs.unlink(outputPath, () => {}); reject(error)`. -/
def revistaOnError (outputPath errMessage : String) : HandlerOutcome :=
  match fsUnlinkRun (.withCallback outputPath) with
  | .ok p => ⟨some p, some errMessage, none⟩
  | .error m => ⟨none, none, some m⟩

/-- The `opiniones_consultivas.js` `downloadFile` error handler (lines
31–34): `fs.unlink(outputPath); reject(error)`. -/
def opinionesOnError (outputPath errMessage : String) : HandlerOutcome :=
  match fsUnlinkRun (.withoutCallback outputPath) with
  | .ok p => ⟨some p, some errMessage, none⟩
  | .error m => ⟨none, none, some m⟩

/-! ### Concrete inputs used by witnesses and counterexamples -/

/-- A 200 response with PDF content type whose body contains the
rate-limit marker. -/
def exRespPdfMarker : HttpResponse :=
  ⟨200, "OK", some "application/pdf", "xx Ha sobrepasado los límites de acceso xx"⟩

/-- A wrapped function that is rate-limited on every attempt. -/
def fnAllRate : Nat → FnOutcome Nat :=
  fun _ => .rateLimitThrown "Rate limit exceeded"

/-- A wrapped function: rate-limited once, then a non-rate-limit error. -/
def fnThenBoom : Nat → FnOutcome Nat :=
  fun i => if i = 0 then .rateLimitThrown "Rate limit exceeded" else .errorThrown "boom"

/-- A wrapped function: rate-limited twice, then success. -/
def fnThenOk : Nat → FnOutcome Nat :=
  fun i => if i < 2 then .rateLimitThrown "Rate limit exceeded" else .success 42

/-- A sample Texto completo URL ending in ".pdf". -/
def exUrl : String := "http://example.com/a.pdf"

/-- A sample article whose Texto completo link is `exUrl`. -/
def exArticle : Article := ⟨"Un articulo", some exUrl⟩

/-- The state with empty ledgers and an empty file system. -/
def emptyCrawlState : CrawlState := ⟨[], [], []⟩

/-- A state whose success ledger already holds the key of `exUrl`. -/
def coveredCrawlState : CrawlState :=
  ⟨[(articleKey exUrl, ⟨exUrl, "Un articulo", "2020", none⟩)], [], []⟩

/-- A sample fragment: one img whose src is a base64 data URI that is not
a data:image URI. -/
def exFragment : List Html :=
  [.elem "img" [("src", "data:text/plain;base64,QUFB")] []]

end Crawler

namespace Crawler

/-- The SHA-256 embedding agrees with the standard test vector for the
string "abc"; this pins `getFileNameFromURL` to the real hash rather than
a stub. -/
theorem sha256Hex_abc :
    sha256Hex "abc" =
      "ba7816bf8f01cfea414140de5dae2223b00361a396177a9cb410ff61f20015ad" := by
  set_option maxRecDepth 10000 in decide

/-- The SHA-256 embedding agrees with the standard test vector for the
empty string. -/
theorem sha256Hex_empty :
    sha256Hex "" =
      "e3b0c44298fc1c149afbf4c8996fb92427ae41e4649b934ca495991b7852b855" := by
  set_option maxRecDepth 10000 in decide

/-- Claim C1, counterexample: a 200 response with content type
application/pdf whose body contains the rate-limit marker resolves — it is
not rejected, although the claimed "rejects exactly when ... or the
response body contains the rate-limit marker" requires a rejection. -/
theorem downloadFileRevista_markerInPdfBody_resolves :
    strContains exRespPdfMarker.body rateLimitMarker = true
    ∧ (downloadFileRevista exRespPdfMarker).isRejected = false := by
  constructor
  · decide
  · rfl

/-- Claim C1 (amended): the Revista downloadFile rejects exactly when the
status is not 200 or the content type is not application/pdf; within the
non-PDF case the rejection is a RateLimitError exactly when the body
contains the rate-limit marker and an ordinary Error otherwise; a non-200
status rejects with an ordinary Error; a 200 response with content type
application/pdf resolves, whatever its body contains. -/
theorem downloadFileRevista_settles_iff (resp : HttpResponse) :
    (downloadFileRevista resp = .resolved ↔
      (resp.statusCode = 200 ∧ contentTypeIsPdf resp = true))
    ∧ (downloadFileRevista resp = .rejectedRateLimit "Rate limit exceeded" ↔
      (resp.statusCode = 200 ∧ contentTypeIsPdf resp = false ∧
        strContains resp.body rateLimitMarker = true))
    ∧ ((∃ m, downloadFileRevista resp = .rejectedError m) ↔
      (resp.statusCode ≠ 200 ∨ (contentTypeIsPdf resp = false ∧
        strContains resp.body rateLimitMarker = false)))
    ∧ ((downloadFileRevista resp).isRejected = true ↔
      (resp.statusCode ≠ 200 ∨ contentTypeIsPdf resp = false)) := by
  obtain ⟨sc, sm, ct, body⟩ := resp
  by_cases hsc : sc = 200
  · subst hsc
    by_cases hpdf : contentTypeIsPdf ⟨200, sm, ct, body⟩ = true
    · simp_all [downloadFileRevista, contentTypeIsPdf, Settled.isRejected]
    · by_cases hmk : strContains body rateLimitMarker = true <;>
        cases ct <;>
        simp_all [downloadFileRevista, contentTypeIsPdf, Settled.isRejected]
  · cases ct <;>
      simp_all [downloadFileRevista, contentTypeIsPdf, Settled.isRejected, hsc]

/-- Claim C4: a URL containing "htm" is rendered to `outputPath + ".pdf"`
as A4 with 20mm margins on all sides; any other URL is fetched with a
direct HTTP(S) GET piped to `outputPath`. -/
theorem downloadFileCidh_spec (fileURL outputPath : String) :
    (strContains fileURL "htm" = true →
      downloadFileCidh fileURL outputPath =
        .renderToPdf (outputPath ++ ".pdf") "A4" "20mm" "20mm" "20mm" "20mm" true)
    ∧ (strContains fileURL "htm" = false →
      downloadFileCidh fileURL outputPath =
        .httpGetPipe (protocolFor fileURL) fileURL outputPath) := by
  constructor <;> intro h <;> simp [downloadFileCidh, h]

/-- Claim C4, witness: the two branches at concrete URLs. -/
theorem downloadFileCidh_spec_witness :
    strContains "https://www.oas.org/es/cidh/decisiones/fondo.htm" "htm" = true
    ∧ downloadFileCidh "https://www.oas.org/es/cidh/decisiones/fondo.htm"
        "./data_cidh/fondo" =
        .renderToPdf "./data_cidh/fondo.pdf" "A4" "20mm" "20mm" "20mm" "20mm" true
    ∧ strContains "https://www.oas.org/doc.pdf" "htm" = false
    ∧ downloadFileCidh "https://www.oas.org/doc.pdf" "./data_cidh/doc.pdf" =
        .httpGetPipe .https "https://www.oas.org/doc.pdf" "./data_cidh/doc.pdf" :=
  ⟨by decide, (downloadFileCidh_spec _ _).1 (by decide), by decide,
   (downloadFileCidh_spec _ _).2 (by decide)⟩

/-- If every attempt from `i` on is rate-limited, the retry loop runs all
`rem` remaining iterations, sleeping after each, and then throws the
exhaustion error. -/
theorem retryGo_allRateLimit {α : Type} (fn : Nat → FnOutcome α) (d n : Nat) :
    ∀ (rem i : Nat), (∀ k, k < rem → ∃ m, fn (i + k) = .rateLimitThrown m) →
      retryWithDelayGo fn d n i rem =
        (rlTrace d i rem, .thrown ("Falló después de " ++ toString n ++ " reintentos"))
  | 0, i, _ => by simp [retryWithDelayGo, rlTrace]
  | rem + 1, i, h => by
    obtain ⟨m, hm⟩ := h 0 (Nat.succ_pos _)
    have ih := retryGo_allRateLimit fn d n rem (i + 1) (fun k hk => by
      have h2 := h (k + 1) (Nat.succ_lt_succ hk)
      have he : i + (k + 1) = i + 1 + k := by omega
      rw [he] at h2
      exact h2)
    simp only [Nat.add_zero] at hm
    simp [retryWithDelayGo, rlTrace, hm, ih]

/-- If the first `j` attempts from `i` on are rate-limited and attempt
`i + j` returns or throws a non-rate-limit error, the loop stops right
there. -/
theorem retryGo_stops {α : Type} (fn : Nat → FnOutcome α) (d n : Nat) :
    ∀ (j : Nat), ∀ (i rem : Nat), j < rem →
      (∀ k, k < j → ∃ m, fn (i + k) = .rateLimitThrown m) →
      ((∀ v, fn (i + j) = .success v →
          retryWithDelayGo fn d n i rem = (rlTrace d i j ++ [.invoke (i + j)], .ok v))
       ∧ (∀ m, fn (i + j) = .errorThrown m →
          retryWithDelayGo fn d n i rem =
            (rlTrace d i j ++ [.invoke (i + j)], .thrown m))) := by
  intro j
  induction j with
  | zero =>
    intro i rem hlt _
    match rem, hlt with
    | rem + 1, _ =>
      constructor
      · intro v hv
        simp only [Nat.add_zero] at hv
        simp [retryWithDelayGo, rlTrace, hv]
      · intro m hm
        simp only [Nat.add_zero] at hm
        simp [retryWithDelayGo, rlTrace, hm]
  | succ j ih =>
    intro i rem hlt hrl
    match rem, hlt with
    | rem + 1, hlt =>
      obtain ⟨m0, hm0⟩ := hrl 0 (Nat.succ_pos _)
      simp only [Nat.add_zero] at hm0
      have hshift : ∀ k, k < j → ∃ m, fn (i + 1 + k) = .rateLimitThrown m := by
        intro k hk
        have h2 := hrl (k + 1) (Nat.succ_lt_succ hk)
        have he : i + (k + 1) = i + 1 + k := by omega
        rw [he] at h2
        exact h2
      have ihj := ih (i + 1) rem (Nat.lt_of_succ_lt_succ hlt) hshift
      have he : i + 1 + j = i + (j + 1) := by omega
      rw [he] at ihj
      constructor
      · intro v hv
        have := ihj.1 v hv
        simp [retryWithDelayGo, rlTrace, hm0, this, he]
      · intro m hm
        have := ihj.2 m hm
        simp [retryWithDelayGo, rlTrace, hm0, this, he]

/-- The trace of `n` rate-limited attempts contains exactly `n`
invocations. -/
theorem countInvokes_rlTrace (d : Nat) :
    ∀ (i n : Nat), countInvokes (rlTrace d i n) = n
  | _, 0 => by simp [rlTrace, countInvokes]
  | i, n + 1 => by
    have ih := countInvokes_rlTrace d (i + 1) n
    simp [rlTrace, countInvokes, List.countP_cons] at ih ⊢
    omega

/-- Claim C2: when every attempt is rate-limited, `retryWithDelay` invokes
the function exactly `n` times, sleeps `d` milliseconds after each failed
attempt, and throws the Falló-después error; a non-rate-limit error at
attempt `j` propagates immediately with no later invocation; a success at
attempt `j` is returned. -/
theorem retryWithDelay_spec {α : Type} (fn : Nat → FnOutcome α) (d n : Nat) :
    (1 ≤ n → (∀ i, i < n → ∃ m, fn i = .rateLimitThrown m) →
      retryWithDelay fn d n =
        (rlTrace d 0 n, .thrown ("Falló después de " ++ toString n ++ " reintentos"))
      ∧ countInvokes (rlTrace d 0 n) = n)
    ∧ (∀ j m, j < n → (∀ i, i < j → ∃ m2, fn i = .rateLimitThrown m2) →
        fn j = .errorThrown m →
        retryWithDelay fn d n = (rlTrace d 0 j ++ [.invoke j], .thrown m))
    ∧ (∀ j v, j < n → (∀ i, i < j → ∃ m2, fn i = .rateLimitThrown m2) →
        fn j = .success v →
        retryWithDelay fn d n = (rlTrace d 0 j ++ [.invoke j], .ok v)) := by
  refine ⟨fun _ h => ⟨?_, countInvokes_rlTrace d 0 n⟩, fun j m hj hrl hm => ?_,
    fun j v hj hrl hv => ?_⟩
  · exact retryGo_allRateLimit fn d n n 0 (fun k hk => by simpa using h k hk)
  · have := (retryGo_stops fn d n j 0 n hj (fun k hk => by simpa using hrl k hk)).2 m
      (by simpa using hm)
    simpa using this
  · have := (retryGo_stops fn d n j 0 n hj (fun k hk => by simpa using hrl k hk)).1 v
      (by simpa using hv)
    simpa using this

/-- Claim C2, witness: the three behaviours at concrete wrapped
functions, delay 7 and retry count 3. -/
theorem retryWithDelay_spec_witness :
    retryWithDelay fnAllRate 7 3 =
      ([.invoke 0, .sleepMs 7, .invoke 1, .sleepMs 7, .invoke 2, .sleepMs 7],
       .thrown "Falló después de 3 reintentos")
    ∧ retryWithDelay fnThenBoom 7 3 =
      ([.invoke 0, .sleepMs 7, .invoke 1], .thrown "boom")
    ∧ retryWithDelay fnThenOk 7 3 =
      ([.invoke 0, .sleepMs 7, .invoke 1, .sleepMs 7, .invoke 2], .ok 42) := by
  refine ⟨?_, ?_, ?_⟩
  · have h := ((retryWithDelay_spec fnAllRate 7 3).1 (by decide)
      (fun i _ => ⟨"Rate limit exceeded", rfl⟩)).1
    simpa [rlTrace] using h
  · have h := (retryWithDelay_spec fnThenBoom 7 3).2.1 1 "boom" (by decide)
      (fun i hi => by
        obtain rfl : i = 0 := by omega
        exact ⟨"Rate limit exceeded", rfl⟩) rfl
    simpa [rlTrace] using h
  · have h := (retryWithDelay_spec fnThenOk 7 3).2.2 2 42 (by decide)
      (fun i hi => by
        match i, hi with
        | 0, _ => exact ⟨"Rate limit exceeded", rfl⟩
        | 1, _ => exact ⟨"Rate limit exceeded", rfl⟩) rfl
    simpa [rlTrace] using h

/-- Setting a key makes it present, whatever the ledger held before. -/
theorem hasKey_setKey (m : Ledger) (k : String) (v : LedgerEntry) :
    hasKey (setKey m k v) k = true := by
  unfold setKey
  split
  · next h =>
    unfold hasKey at h ⊢
    rw [List.any_eq_true] at h ⊢
    obtain ⟨p, hp, hpk⟩ := h
    exact ⟨(k, v), List.mem_map.mpr ⟨p, hp, by simp_all⟩, by simp⟩
  · next h =>
    unfold hasKey
    rw [List.any_eq_true]
    exact ⟨(k, v), by simp, by simp⟩

/-- A covered article (no link, key in a ledger, or file on disk) is a
no-op: no state change, no events, nothing thrown. -/
theorem processArticle_covered_eq (st : CrawlState) (outputDir category : String)
    (art : Article) (f : FetchOutcome) (h : articleCovered st outputDir art = true) :
    processAndDownloadArticle st art outputDir category f = ⟨st, [], none⟩ := by
  match hlink : art.textoCompletoLink with
  | none => simp [processAndDownloadArticle, hlink]
  | some link =>
    simp only [articleCovered, hlink, Bool.or_eq_true] at h
    by_cases hsk : skipByLedger st (getFileNameFromURL link) = true
    · simp [processAndDownloadArticle, hlink, hsk]
    · have hc : st.files.contains (articlePath outputDir link) = true := by
        rcases h with h | h
        · exact absurd h hsk
        · exact h
      have hc2 : articlePath outputDir link ∈ st.files := by simpa using hc
      simp [processAndDownloadArticle, hlink, hsk, hc2]

/-- Claim C3: an article whose derived key is in the success ledger (with
".pdf" appended) or in the failure ledger, or whose output file exists,
triggers no download and no PDF generation — the call returns with no
events and no state change; consequently a whole run over articles that
are all covered by the unchanged ledgers and filesystem produces no events
at all, in particular zero network fetches. -/
theorem processArticle_skipNoFetch (st : CrawlState) (outputDir category : String) :
    (∀ (art : Article) (link : String) (f : FetchOutcome),
      art.textoCompletoLink = some link →
      (hasKey st.caseMapping (articleKey link) = true
        ∨ hasKey st.failedCaseMapping (getFileNameFromURL link) = true
        ∨ st.files.contains (articlePath outputDir link) = true) →
      processAndDownloadArticle st art outputDir category f = ⟨st, [], none⟩)
    ∧ (∀ (arts : List (Article × FetchOutcome)),
      (∀ p, p ∈ arts → articleCovered st outputDir p.1 = true) →
      (processArticles outputDir category st arts).events = []) := by
  constructor
  · intro art link f hlink h
    apply processArticle_covered_eq
    simp only [articleCovered, hlink, Bool.or_eq_true, skipByLedger, articleKey] at h ⊢
    tauto
  · intro arts
    induction arts with
    | nil => intro _; simp [processArticles]
    | cons p rest ih =>
      intro h
      obtain ⟨a, f⟩ := p
      have ha := processArticle_covered_eq st outputDir category a f
        (h (a, f) (List.mem_cons_self _ _))
      have hr := ih fun q hq => h q (List.mem_cons_of_mem _ hq)
      simp [processArticles, ha, hr]

/-- Claim C3, witness: with the key of `exUrl` in the success ledger, the
call is a no-op and a run over that single article produces no events. -/
theorem processArticle_skipNoFetch_witness :
    exArticle.textoCompletoLink = some exUrl
    ∧ hasKey coveredCrawlState.caseMapping (articleKey exUrl) = true
    ∧ processAndDownloadArticle coveredCrawlState exArticle "out" "2020" .ok =
        ⟨coveredCrawlState, [], none⟩
    ∧ (processArticles "out" "2020" coveredCrawlState [(exArticle, .ok)]).events = [] := by
  have h1 : hasKey coveredCrawlState.caseMapping (articleKey exUrl) = true := by
    simp [coveredCrawlState, hasKey]
  have hcov : articleCovered coveredCrawlState "out" exArticle = true := by
    simp [articleCovered, exArticle, skipByLedger, articleKey] at h1 ⊢
    tauto
  refine ⟨rfl, h1, ?_, ?_⟩
  · exact (processArticle_skipNoFetch coveredCrawlState "out" "2020").1 exArticle exUrl .ok
      rfl (Or.inl h1)
  · exact (processArticle_skipNoFetch coveredCrawlState "out" "2020").2 [(exArticle, .ok)]
      (by intro p hp; simp at hp; subst hp; exact hcov)

/-- Claim C5, counterexample: with empty ledgers and an empty filesystem,
processing an article whose fetch throws a non-rate-limit error leaves an
entry for the article in the (in-memory) success ledger, although its
fetch did not succeed and the success ledger was never persisted. -/
theorem successLedger_entryDespiteFailedFetch :
    hasKey (processAndDownloadArticle emptyCrawlState exArticle "out" "2020"
        (.failure "boom")).state.caseMapping (articleKey exUrl) = true
    ∧ Ev.persistSuccess ∉ (processAndDownloadArticle emptyCrawlState exArticle "out" "2020"
        (.failure "boom")).events := by
  have hstep : processAndDownloadArticle emptyCrawlState exArticle "out" "2020"
      (.failure "boom") =
      ⟨⟨[(articleKey exUrl, ⟨exUrl, "Un articulo", "2020", none⟩)],
        [(getFileNameFromURL "unknown", ⟨"unknown", "unknown", "unknown", some "boom"⟩)],
        []⟩,
       [.ledgerSet (articleKey exUrl), .networkDownload exUrl,
        .failedLedgerSet (getFileNameFromURL "unknown"), .persistFailed],
       none⟩ := by
    simp only [processAndDownloadArticle, exArticle, emptyCrawlState, skipByLedger, hasKey,
      setKey, articleKey, articlePath, fetchEventOf, strEndsWith, exUrl]
    simp
    decide
  rw [hstep]
  constructor
  · simp [hasKey]
  · simp

/-- Claim C5 (amended): for a non-skipped article the success-ledger entry
is assigned before the fetch runs (the first two events are the ledger
assignment and then the fetch), the entry is in the in-memory success
ledger afterwards whatever the fetch outcome, and the success ledger is
persisted exactly when the fetch succeeded. -/
theorem processArticle_ledgerTiming (st : CrawlState) (art : Article)
    (outputDir category link : String) (f : FetchOutcome)
    (hlink : art.textoCompletoLink = some link)
    (hsk : skipByLedger st (getFileNameFromURL link) = false)
    (hf : st.files.contains (articlePath outputDir link) = false) :
    (processAndDownloadArticle st art outputDir category f).events.take 2 =
      [.ledgerSet (articleKey link), fetchEventOf link]
    ∧ hasKey (processAndDownloadArticle st art outputDir category f).state.caseMapping
        (articleKey link) = true
    ∧ (Ev.persistSuccess ∈ (processAndDownloadArticle st art outputDir category f).events
        ↔ f = .ok) := by
  have hpse : ∀ u, Ev.persistSuccess ≠ fetchEventOf u := by
    intro u
    simp [fetchEventOf]
    split <;> simp
  have hf2 : articlePath outputDir link ∉ st.files := by simpa using hf
  cases f <;>
    simp [processAndDownloadArticle, hlink, hsk, hf2, articleKey, hasKey_setKey, hpse]

/-- Claim C5 (amended), witness at a concrete article with empty state. -/
theorem processArticle_ledgerTiming_witness :
    exArticle.textoCompletoLink = some exUrl
    ∧ skipByLedger emptyCrawlState (getFileNameFromURL exUrl) = false
    ∧ emptyCrawlState.files.contains (articlePath "out" exUrl) = false
    ∧ (processAndDownloadArticle emptyCrawlState exArticle "out" "2020"
        (.failure "boom")).events.take 2 =
        [.ledgerSet (articleKey exUrl), fetchEventOf exUrl]
    ∧ hasKey (processAndDownloadArticle emptyCrawlState exArticle "out" "2020"
        (.failure "boom")).state.caseMapping (articleKey exUrl) = true
    ∧ (Ev.persistSuccess ∈ (processAndDownloadArticle emptyCrawlState exArticle "out" "2020"
        (.failure "boom")).events ↔ FetchOutcome.failure "boom" = FetchOutcome.ok) := by
  have h := processArticle_ledgerTiming emptyCrawlState exArticle "out" "2020" exUrl
    (.failure "boom") rfl rfl rfl
  exact ⟨rfl, rfl, rfl, h.1, h.2.1, h.2.2⟩

/-- Claim C7: a non-rate-limit error raised while processing a
(non-skipped) article is caught; the failure ledger records url, title and
category as "unknown" together with the error message and is persisted;
nothing is re-thrown, so a loop over articles continues with the next
item.  A RateLimitError is re-thrown (and does not touch the failure
ledger); at the year level `retryWithDelay` then sleeps the fixed
15-minute delay and re-invokes the processor. -/
theorem processArticle_errorRouting (st : CrawlState) (art : Article)
    (outputDir category link : String)
    (hlink : art.textoCompletoLink = some link)
    (hsk : skipByLedger st (getFileNameFromURL link) = false)
    (hf : st.files.contains (articlePath outputDir link) = false) :
    (∀ m,
      (processAndDownloadArticle st art outputDir category (.failure m)).rethrown = none
      ∧ (processAndDownloadArticle st art outputDir category
          (.failure m)).state.failedCaseMapping =
          setKey st.failedCaseMapping (getFileNameFromURL "unknown")
            ⟨"unknown", "unknown", "unknown", some m⟩
      ∧ Ev.persistFailed ∈
          (processAndDownloadArticle st art outputDir category (.failure m)).events
      ∧ (∀ rest, processArticles outputDir category st ((art, .failure m) :: rest) =
          ⟨(processArticles outputDir category
              (processAndDownloadArticle st art outputDir category (.failure m)).state
              rest).state,
           (processAndDownloadArticle st art outputDir category (.failure m)).events ++
             (processArticles outputDir category
               (processAndDownloadArticle st art outputDir category (.failure m)).state
               rest).events,
           (processArticles outputDir category
              (processAndDownloadArticle st art outputDir category (.failure m)).state
              rest).rethrown⟩))
    ∧ (∀ m,
      (processAndDownloadArticle st art outputDir category (.rateLimit m)).rethrown = some m
      ∧ (processAndDownloadArticle st art outputDir category
          (.rateLimit m)).state.failedCaseMapping = st.failedCaseMapping
      ∧ retryArticle st art outputDir category (fun _ => .rateLimit m) =
          ⟨(processAndDownloadArticle st art outputDir category (.rateLimit m)).state,
           [.invoke 0, .ledgerSet (articleKey link), fetchEventOf link,
            .sleepMs scrapeYearDelayMs, .invoke 1],
           true⟩) := by
  have hf2 : articlePath outputDir link ∉ st.files := by simpa using hf
  have hstep : ∀ f, processAndDownloadArticle st art outputDir category f =
      match f with
      | .ok =>
          ⟨{ st with
              caseMapping := setKey st.caseMapping (articleKey link)
                ⟨link, art.title, category, none⟩,
              files := articlePath outputDir link :: st.files },
           [.ledgerSet (articleKey link), fetchEventOf link, .persistSuccess], none⟩
      | .rateLimit m =>
          ⟨{ st with
              caseMapping := setKey st.caseMapping (articleKey link)
                ⟨link, art.title, category, none⟩ },
           [.ledgerSet (articleKey link), fetchEventOf link], some m⟩
      | .failure m =>
          ⟨{ st with
              caseMapping := setKey st.caseMapping (articleKey link)
                ⟨link, art.title, category, none⟩,
              failedCaseMapping := setKey st.failedCaseMapping
                (getFileNameFromURL "unknown")
                ⟨"unknown", "unknown", "unknown", some m⟩ },
           [.ledgerSet (articleKey link), fetchEventOf link,
            .failedLedgerSet (getFileNameFromURL "unknown"), .persistFailed], none⟩ := by
    intro f
    cases f <;> simp [processAndDownloadArticle, hlink, hsk, hf2, articleKey]
  constructor
  · intro m
    refine ⟨by simp [hstep], by simp [hstep], by simp [hstep], ?_⟩
    intro rest
    have hnone : (processAndDownloadArticle st art outputDir category
        (.failure m)).rethrown = none := by simp [hstep]
    simp only [processArticles]
    rw [hnone]
  · intro m
    have hkk : hasKey (setKey st.caseMapping (articleKey link)
        ⟨link, art.title, category, none⟩) (articleKey link) = true :=
      hasKey_setKey _ _ _
    have hcov : articleCovered
        (processAndDownloadArticle st art outputDir category (.rateLimit m)).state
        outputDir art = true := by
      rw [hstep]
      simp only [articleCovered, hlink, skipByLedger, Bool.or_eq_true, articleKey] at hkk ⊢
      exact Or.inl (Or.inl hkk)
    have hskip1 : processAndDownloadArticle
        (processAndDownloadArticle st art outputDir category (.rateLimit m)).state art
        outputDir category (.rateLimit m) =
        ⟨(processAndDownloadArticle st art outputDir category (.rateLimit m)).state,
         [], none⟩ :=
      processArticle_covered_eq _ _ _ _ _ hcov
    refine ⟨by simp [hstep], by simp [hstep], ?_⟩
    rw [hstep] at hskip1
    simp only [retryArticle, scrapeYearRetries]
    rw [hstep]
    simp [retryArticleGo, hstep, hskip1]

/-- Claim C7, witness: the two routes at a concrete article with empty
ledgers and filesystem. -/
theorem processArticle_errorRouting_witness :
    ((processAndDownloadArticle emptyCrawlState exArticle "out" "2020"
        (.failure "boom")).rethrown = none
      ∧ Ev.persistFailed ∈ (processAndDownloadArticle emptyCrawlState exArticle "out" "2020"
          (.failure "boom")).events)
    ∧ ((processAndDownloadArticle emptyCrawlState exArticle "out" "2020"
        (.rateLimit "Rate limit exceeded")).rethrown = some "Rate limit exceeded"
      ∧ retryArticle emptyCrawlState exArticle "out" "2020"
          (fun _ => .rateLimit "Rate limit exceeded") =
          ⟨(processAndDownloadArticle emptyCrawlState exArticle "out" "2020"
              (.rateLimit "Rate limit exceeded")).state,
           [.invoke 0, .ledgerSet (articleKey exUrl), fetchEventOf exUrl,
            .sleepMs scrapeYearDelayMs, .invoke 1],
           true⟩) := by
  have h := processArticle_errorRouting emptyCrawlState exArticle "out" "2020" exUrl
    rfl rfl rfl
  exact ⟨⟨(h.1 "boom").1, (h.1 "boom").2.2.1⟩,
    ⟨(h.2 "Rate limit exceeded").1, (h.2 "Rate limit exceeded").2.2⟩⟩

/-- Claim C8: `getFileNameFromURL` is deterministic — evaluated twice on
the same URL it returns the identical SHA-256 file name. -/
theorem getFileNameFromURL_deterministic (u v : String) (h : u = v) :
    getFileNameFromURL u = getFileNameFromURL v := by
  rw [h]

/-- Claim C8, witness at a concrete URL. -/
theorem getFileNameFromURL_deterministic_witness :
    exUrl = exUrl ∧ getFileNameFromURL exUrl = getFileNameFromURL exUrl :=
  ⟨rfl, getFileNameFromURL_deterministic exUrl exUrl rfl⟩

/-- Each Revista/UMN ledger value serializes to an object of the claimed
url/title/category/error shape. -/
theorem isClaimedEntryShape_ledgerEntryJson (e : LedgerEntry) :
    isClaimedEntryShape (ledgerEntryJson e) = true := by
  obtain ⟨u, t, c, err⟩ := e
  cases err <;> simp [ledgerEntryJson, isClaimedEntryShape, jsonLookup]

/-- Claim C6, counterexample: the ledger file the CIDH fondos crawler
writes maps the file name to the bare case-name string, which is not an
object of the claimed url/title/category/error shape. -/
theorem cidhLedger_violatesClaimedShape :
    claimedLedgerShape
      (strMapJson (cidhRecordCase [] "102-06.pdf" "Caso 12.345")) = false := rfl

/-- Claim C6 (amended): ledgers written by the Revista and UMN crawlers
have the claimed shape; the CIDH fondos case mapping instead maps each key
to the case-name string — every value of its JSON file is a string. -/
theorem ledgerShape_amended :
    (∀ m : Ledger, claimedLedgerShape (ledgerJson m) = true)
    ∧ (∀ m : List (String × String), jsonValuesAllStrings (strMapJson m) = true)
    ∧ (∀ (m : List (String × String)) (fileName caseName : String),
        jsonValuesAllStrings (strMapJson (cidhRecordCase m fileName caseName)) = true) := by
  have hstr : ∀ m : List (String × String), jsonValuesAllStrings (strMapJson m) = true := by
    intro m
    induction m with
    | nil => rfl
    | cons p ps ih => simpa [jsonValuesAllStrings, strMapJson, isStrJson] using ih
  refine ⟨?_, hstr, fun m f c => hstr _⟩
  intro m
  induction m with
  | nil => rfl
  | cons p ps ih =>
    simp only [claimedLedgerShape, ledgerJson, List.map_cons, List.all_cons,
      Bool.and_eq_true] at ih ⊢
    exact ⟨isClaimedEntryShape_ledgerEntryJson p.2, ih⟩

/-- After removing every node that `bad` matches, no remaining element
matches `bad`. -/
theorem allNodes_removeNodes_self (bad : String → List (String × String) → Bool)
    (l : List Html) :
    allNodes (fun t a => !bad t a) (removeNodes bad l) = true := by
  induction l using removeNodes.induct bad <;> simp_all [removeNodes, allNodes]

/-- Removing nodes preserves any all-nodes property. -/
theorem allNodes_removeNodes_mono (bad p : String → List (String × String) → Bool)
    (l : List Html) (h : allNodes p l = true) :
    allNodes p (removeNodes bad l) = true := by
  induction l using removeNodes.induct bad <;> simp_all [removeNodes, allNodes]

/-- A property that holds of every rewritten attribute list holds
everywhere after the attribute rewrite. -/
theorem allNodes_mapAttrs_establish
    (f : List (String × String) → List (String × String))
    (q : String → List (String × String) → Bool)
    (hq : ∀ t a, q t (f a) = true) (l : List Html) :
    allNodes q (mapAttrs f l) = true := by
  induction l using mapAttrs.induct f <;> simp_all [mapAttrs, allNodes]

/-- An attribute rewrite that preserves a property pointwise preserves it
on all nodes. -/
theorem allNodes_mapAttrs_mono
    (f : List (String × String) → List (String × String))
    (p : String → List (String × String) → Bool)
    (hp : ∀ t a, p t a = true → p t (f a) = true) (l : List Html)
    (h : allNodes p l = true) :
    allNodes p (mapAttrs f l) = true := by
  induction l using mapAttrs.induct f <;> simp_all [mapAttrs, allNodes]

/-- Attribute lookup steps over a cons cell. -/
theorem attrLookup_cons (p : String × String) (l : List (String × String))
    (k : String) :
    attrLookup (p :: l) k = if p.1 == k then some p.2 else attrLookup l k := by
  by_cases h : (p.1 == k) = true <;> simp [attrLookup, List.find?_cons, h]

/-- Dropping an attribute other than `k` does not change the lookup of
`k`. -/
theorem attrLookup_removeAttrKey (k k2 : String) (hne : k ≠ k2)
    (a : List (String × String)) :
    attrLookup (removeAttrKey k2 a) k = attrLookup a k := by
  induction a with
  | nil => rfl
  | cons p ps ih =>
    by_cases hp : p.1 = k2
    · have h1 : removeAttrKey k2 (p :: ps) = removeAttrKey k2 ps := by
        simp [removeAttrKey, hp]
      have hpk : (p.1 == k) = false := by
        simp only [beq_eq_false_iff_ne, ne_eq]
        exact fun h => hne (h.symm.trans hp)
      rw [h1, ih, attrLookup_cons, hpk]
      simp
    · have h1 : removeAttrKey k2 (p :: ps) = p :: removeAttrKey k2 ps := by
        simp [removeAttrKey, hp]
      rw [h1, attrLookup_cons, attrLookup_cons, ih]

/-- Removing the class or style attribute does not change whether a node
is a data:image img. -/
theorem badDataImageImg_removeAttrKey (t k : String) (hk : k ≠ "src")
    (a : List (String × String)) :
    badDataImageImg t (removeAttrKey k a) = badDataImageImg t a := by
  rw [badDataImageImg, badDataImageImg,
    attrLookup_removeAttrKey "src" k (fun h => hk h.symm)]

/-- After `removeAttr k` the attribute `k` is gone. -/
theorem hasNoAttr_removeAttrKey (k t : String) (a : List (String × String)) :
    hasNoAttr k t (removeAttrKey k a) = true := by
  induction a with
  | nil => rfl
  | cons p ps ih =>
    by_cases hp : p.1 = k
    · have h1 : removeAttrKey k (p :: ps) = removeAttrKey k ps := by
        simp [removeAttrKey, hp]
      rw [h1]
      exact ih
    · have h1 : removeAttrKey k (p :: ps) = p :: removeAttrKey k ps := by
        simp [removeAttrKey, hp]
      rw [h1]
      simp only [hasNoAttr, List.all_cons, Bool.and_eq_true]
      exact ⟨by simp [hp], ih⟩

/-- Dropping one attribute preserves the absence of another. -/
theorem hasNoAttr_removeAttrKey_mono (k k2 t : String) (a : List (String × String))
    (h : hasNoAttr k t a = true) :
    hasNoAttr k t (removeAttrKey k2 a) = true := by
  induction a with
  | nil => rfl
  | cons p ps ih =>
    simp only [hasNoAttr, List.all_cons, Bool.and_eq_true] at h
    by_cases hp : p.1 = k2
    · have h1 : removeAttrKey k2 (p :: ps) = removeAttrKey k2 ps := by
        simp [removeAttrKey, hp]
      rw [h1]
      exact ih h.2
    · have h1 : removeAttrKey k2 (p :: ps) = p :: removeAttrKey k2 ps := by
        simp [removeAttrKey, hp]
      rw [h1]
      simp only [hasNoAttr, List.all_cons, Bool.and_eq_true]
      exact ⟨h.1, ih h.2⟩

/-- Claim C10, counterexample: an img whose src is a base64 data URI that
does not start with data:image survives all four passes, so the returned
string still contains it — the claim that no img with a base64 data URI
src remains is false. -/
theorem parseGoogleResults_keepsBase64DataURI :
    isBase64DataURI "data:text/plain;base64,QUFB" = true
    ∧ parseGoogleResults exFragment =
        "<img src=\"data:text/plain;base64,QUFB\"></img>" := by
  constructor
  · decide
  · have h1 : badDataImageImg "img" [("src", "data:text/plain;base64,QUFB")] = false := by
      decide
    have h2 : badStyleElem "img" [("src", "data:text/plain;base64,QUFB")] = false := by
      decide
    have h3 : removeAttrKey "class" [("src", "data:text/plain;base64,QUFB")] =
        [("src", "data:text/plain;base64,QUFB")] := by decide
    have h4 : removeAttrKey "style" [("src", "data:text/plain;base64,QUFB")] =
        [("src", "data:text/plain;base64,QUFB")] := by decide
    simp [parseGoogleResults, cleanGoogleResults, exFragment, removeNodes, mapAttrs,
      h1, h2, h3, h4, renderHtml, renderAttrs]

/-- Claim C10 (amended): the cleaned tree `parseGoogleResults` serializes
contains no img whose src starts with "data:image" (imgs with other data:
URIs, base64 included, are kept), no class attributes, no style elements
and no style attributes; the function returns the serialized HTML string
of that tree, not a list of title/description/link objects. -/
theorem parseGoogleResults_amended (fragment : List Html) :
    allNodes (fun t a => !badDataImageImg t a) (cleanGoogleResults fragment) = true
    ∧ allNodes (hasNoAttr "class") (cleanGoogleResults fragment) = true
    ∧ allNodes (fun t a => !badStyleElem t a) (cleanGoogleResults fragment) = true
    ∧ allNodes (hasNoAttr "style") (cleanGoogleResults fragment) = true
    ∧ parseGoogleResults fragment = renderHtml (cleanGoogleResults fragment) := by
  refine ⟨?_, ?_, ?_, ?_, rfl⟩
  · apply allNodes_mapAttrs_mono
    · intro t a h
      rwa [badDataImageImg_removeAttrKey t "style" (by decide) a]
    · apply allNodes_removeNodes_mono
      apply allNodes_mapAttrs_mono
      · intro t a h
        rwa [badDataImageImg_removeAttrKey t "class" (by decide) a]
      · exact allNodes_removeNodes_self badDataImageImg fragment
  · apply allNodes_mapAttrs_mono
    · intro t a h
      exact hasNoAttr_removeAttrKey_mono "class" "style" t a h
    · apply allNodes_removeNodes_mono
      exact allNodes_mapAttrs_establish _ _ (fun t a => hasNoAttr_removeAttrKey "class" t a) _
  · apply allNodes_mapAttrs_mono
    · intro t a h
      exact h
    · exact allNodes_removeNodes_self badStyleElem _
  · exact allNodes_mapAttrs_establish _ _ (fun t a => hasNoAttr_removeAttrKey "style" t a) _

/-- Claim C9: evaluating both error-event handlers.  In
`opiniones_consultivas.js` the handler calls `fs.unlink` without a
callback, which throws a TypeError before any deletion or rejection
happens — contradicting the claimed unlink-and-reject behaviour (and the
comment in the source).  The Revista handler does unlink and reject. -/
theorem opinionesOnError_divergence :
    opinionesOnError "./data/opiniones_consultivas/pdf/x.pdf" "read ECONNRESET" =
      ⟨none, none, some "TypeError: The callback argument must be of type function"⟩
    ∧ revistaOnError "./out/x.pdf" "read ECONNRESET" =
      ⟨some "./out/x.pdf", some "read ECONNRESET", none⟩ :=
  ⟨rfl, rfl⟩

end Crawler
